import Mathlib

/-!
# Verification of `galaxy_admin.py`

A shallow embedding of the command-line administrative utility
`galaxy_admin.py` (a thin client over the Galaxy administrative API),
together with proofs about its three report generators
(`print_user_emails`, `print_usage_report`, `print_job_runtimes`) and its
command dispatcher.

Modelling conventions:
* Calendar dates are day numbers (`Int`); `timedelta(days=n)` subtraction is
  integer subtraction.
* Python numeric values (the `float` runtimes) are modelled as `ℚ`; all the
  concrete values appearing in the development are exactly representable as
  binary floats, so `ℚ` arithmetic agrees with the Python computation there.
* The remote `GalaxyInstance` is an oracle record: its fields are the data
  the three API operations used by the script would return.  A failing
  per-job detail fetch (`bioblend.ConnectionError`) is modelled by
  `show_job` returning `none`.
* `print` output is modelled as lists of structured lines; the spec declares
  the exact column widths a non-contractual formatting convenience.
-/

set_option autoImplicit false

namespace GalaxyAdmin

/-- A Galaxy user record; the script only reads the optional `email` field
(`user.get("email")`). -/
structure User where
  email : Option String
  deriving DecidableEq

/-- One named metric from a job's `job_metrics` collection.  The script reads
`metric["name"]` and `float(metric["raw_value"])`; we store the numeric value
directly as `ℚ`. -/
structure Metric where
  name : String
  raw_value : ℚ
  deriving DecidableEq

/-- The full-details view of a job returned by `galaxy.jobs.show_job`; the
script only reads its `job_metrics` list. -/
structure JobDetail where
  job_metrics : List Metric
  deriving DecidableEq

/-- A job record as returned by `galaxy.jobs.get_jobs`.  The script reads
`id`, `state`, `tool_id` and (when `user_details=True`) the optional
`user_email` field (`job.get("user_email")`). -/
structure Job where
  id : String
  state : String
  tool_id : String
  user_email : Option String
  deriving DecidableEq

/-- Oracle for the remote Galaxy instance: the three API operations the
script performs.  `get_jobs` takes the `date_range_min` day number and the
`user_details` flag; `show_job` takes the job id and the `full_details`
flag and returns `none` when the call fails with a connection error. -/
structure GalaxyInstance where
  get_users : List User
  get_jobs : Int → Bool → List Job
  show_job : String → Bool → Option JobDetail

/-! ## `print_user_emails` -/

/-- The loop body of `print_user_emails`: one output line per user whose
`email` is present, in input order. -/
def emailLines : List User → List String
  | [] => []
  | u :: rest =>
    match u.email with
    | some email => email :: emailLines rest
    | none => emailLines rest

/-- `print_user_emails(galaxy)`: fetch all users and print each present
email on its own line. -/
def print_user_emails (galaxy : GalaxyInstance) : List String :=
  emailLines galaxy.get_users

/-! ## `print_usage_report` -/

/-- `len({job.get("user_email") for job in jobs})`: the number of distinct
values (including a possible `none`) of the `user_email` field. -/
def unique_users (jobs : List Job) : Nat :=
  ((jobs.map fun job => job.user_email).toFinset).card

/-- One line of the usage report: the header, or a data row carrying the
window size in days, the job count and the active-user count. -/
inductive UsageLine where
  | header
  | row (days : Nat) (job_count : Nat) (active_users : Nat)
  deriving DecidableEq

/-- The fixed tuple of lookback windows `days_ago = (1, 7, 30, 90, 180, 365)`. -/
def days_ago_windows : List Nat := [1, 7, 30, 90, 180, 365]

/-- `print_usage_report(galaxy)`: a header line, then one data row per
lookback window, fetching the jobs since `current_date - days` with user
details enabled. -/
def print_usage_report (galaxy : GalaxyInstance) (current_date : Int) :
    List UsageLine :=
  UsageLine.header ::
    days_ago_windows.map fun (days : Nat) =>
      let time_point := current_date - (days : Int)
      let jobs := galaxy.get_jobs time_point true
      UsageLine.row days jobs.length (unique_users jobs)

/-- The count the spec describes: distinct, *non-absent* submitting-user
emails.  Follows the spec's words, for comparison with `unique_users`. -/
def spec_active_users (jobs : List Job) : Nat :=
  ((jobs.filterMap fun job => job.user_email).toFinset).card

/-! ## `print_job_runtimes` -/

/-- Python's `int(str)`: strip surrounding whitespace, an optional sign,
then a non-empty digit string; `none` models the `ValueError` raised on any
other input.  (Underscore digit grouping and non-ASCII digits are omitted;
no input in this development uses them.) -/
def pyInt (s : String) : Option Int :=
  let cs :=
    ((s.toList.dropWhile fun c => c.isWhitespace).reverse.dropWhile
      fun c => c.isWhitespace).reverse
  let digitsToNat : List Char → Nat := fun l =>
    l.foldl (fun n c => 10 * n + (c.toNat - '0'.toNat)) 0
  match cs with
  | '-' :: rest =>
    if rest.isEmpty then none
    else if rest.all fun c => c.isDigit then some (-(digitsToNat rest : Int))
    else none
  | '+' :: rest =>
    if rest.isEmpty then none
    else if rest.all fun c => c.isDigit then some (digitsToNat rest : Int)
    else none
  | rest =>
    if rest.isEmpty then none
    else if rest.all fun c => c.isDigit then some (digitsToNat rest : Int)
    else none

/-- Python's builtin `round` on a (rational-valued) number: nearest integer,
ties going to the even neighbour (banker's rounding). -/
def pyRound (q : ℚ) : Int :=
  let f := ⌊q⌋
  let frac := q - f
  if frac < 1 / 2 then f
  else if 1 / 2 < frac then f + 1
  else if f % 2 = 0 then f else f + 1

/-- Python's `min` over a non-empty list (`0` for the never-used empty case). -/
def listMin : List ℚ → ℚ
  | [] => 0
  | x :: xs => xs.foldl min x

/-- Python's `max` over a non-empty list (`0` for the never-used empty case). -/
def listMax : List ℚ → ℚ
  | [] => 0
  | x :: xs => xs.foldl max x

/-- Insert `x` into an already-sorted list, keeping it sorted (ascending). -/
def insertSorted (x : ℚ) : List ℚ → List ℚ
  | [] => [x]
  | y :: ys => if x ≤ y then x :: y :: ys else y :: insertSorted x ys

/-- Sort ascending (insertion sort), as `sorted` does inside
`statistics.median`. -/
def sortQ (l : List ℚ) : List ℚ := l.foldr insertSorted []

/-- `statistics.median`: the middle element of the sorted list for odd
length, the average of the two middle elements for even length. -/
def median (l : List ℚ) : ℚ :=
  let s := sortQ l
  let n := s.length
  if n % 2 = 1 then s.getD (n / 2) 0
  else (s.getD (n / 2 - 1) 0 + s.getD (n / 2) 0) / 2

/-- `statistics.mean`: sum divided by length. -/
def mean (l : List ℚ) : ℚ := l.sum / (l.length : ℚ)

/-- The loop of `print_job_runtimes` over the fetched jobs.  Returns the
`(tool_id, runtime)` pairs appended to the `runtimes` dict, in order, paired
with the trace of job ids passed to `galaxy.jobs.show_job`.  A job whose
`state` is not `"ok"` is skipped entirely; a `show_job` connection error
(`none`) breaks out of the loop. -/
def jobLoop (show_job : String → Bool → Option JobDetail) :
    List Job → List (String × ℚ) × List String
  | [] => ([], [])
  | job :: rest =>
    if job.state = "ok" then
      match show_job job.id true with
      | none => ([], [job.id])
      | some details =>
        let recorded :=
          (details.job_metrics.filter fun metric =>
              metric.name = "runtime_seconds").map
            fun metric => (job.tool_id, metric.raw_value)
        let r := jobLoop show_job rest
        (recorded ++ r.1, job.id :: r.2)
    else jobLoop show_job rest

/-- `runtimes[tool_id].append(value)` on an insertion-ordered dict of lists
(`defaultdict(list)`): append to the existing entry, or add a new entry at
the end. -/
def insertRuntime (acc : List (String × List ℚ)) (tool_id : String)
    (value : ℚ) : List (String × List ℚ) :=
  match acc with
  | [] => [(tool_id, [value])]
  | (t, vs) :: rest =>
    if t = tool_id then (t, vs ++ [value]) :: rest
    else (t, vs) :: insertRuntime rest tool_id value

/-- The `runtimes` dict built by the loop: tool ids in first-encounter
order, each with its list of recorded runtimes in order. -/
def buildRuntimes (pairs : List (String × ℚ)) : List (String × List ℚ) :=
  pairs.foldl (fun acc p => insertRuntime acc p.1 p.2) []

/-- One printed statistics row of `print_job_runtimes`. -/
structure ToolStats where
  tool_id : String
  times_executed : Nat
  min_runtime : Int
  max_runtime : Int
  median_runtime : Int
  mean_runtime : Int
  deriving DecidableEq

/-- The statistics row computed for one tool from its recorded runtimes:
execution count, and `round` of min, max, `statistics.median` and
`statistics.mean`. -/
def toolStats (tool_id : String) (runtime_values : List ℚ) : ToolStats :=
  { tool_id := tool_id
    times_executed := runtime_values.length
    min_runtime := pyRound (listMin runtime_values)
    max_runtime := pyRound (listMax runtime_values)
    median_runtime := pyRound (median runtime_values)
    mean_runtime := pyRound (mean runtime_values) }

/-- One line of the `job-runtimes` report: the job-count summary line, the
column-header line, or a per-tool statistics row. -/
inductive RuntimeLine where
  | summary (days_ago : Int) (job_count : Nat)
  | header
  | row (stats : ToolStats)
  deriving DecidableEq

/-- The Python errors the script can raise: the argument parser's usage
error, a `TypeError` from calling a report function with the wrong number
of arguments, and the `ValueError` from `int()` on a bad string. -/
inductive PyError where
  | usageError
  | typeError
  | valueError
  deriving DecidableEq

/-- The body of `print_job_runtimes` after the jobs list has been fetched:
the summary line, the header line, then one row per entry of the
`runtimes` dict. -/
def job_runtimes_lines (show_job : String → Bool → Option JobDetail)
    (jobs : List Job) (days_ago : Int) : List RuntimeLine :=
  let runtimes := buildRuntimes (jobLoop show_job jobs).1
  RuntimeLine.summary days_ago jobs.length :: RuntimeLine.header ::
    runtimes.map fun p => RuntimeLine.row (toolStats p.1 p.2)

/-- `print_job_runtimes(galaxy, days_ago)`: convert `days_ago` with `int()`
(`ValueError` propagates), fetch the jobs since `current_date - days_ago`,
then print the summary, header and per-tool rows. -/
def print_job_runtimes (galaxy : GalaxyInstance) (current_date : Int)
    (days_ago : String) : Except PyError (List RuntimeLine) :=
  match pyInt days_ago with
  | none => Except.error PyError.valueError
  | some d =>
    let time_point := current_date - d
    Except.ok (job_runtimes_lines galaxy.show_job
      (galaxy.get_jobs time_point false) d)

/-! ## Command dispatcher -/

/-- The keys of the `COMMANDS` dispatch dict, in order
(`AVAILABLE_COMMANDS = list(COMMANDS.keys())`). -/
def AVAILABLE_COMMANDS : List String :=
  ["user_emails", "usage_report", "job_runtimes"]

/-- The output of one program run: the lines printed by whichever report
ran. -/
inductive ProgramOutput where
  | userEmails (lines : List String)
  | usageReport (lines : List UsageLine)
  | jobRuntimes (lines : List RuntimeLine)
  deriving DecidableEq

/-- `COMMANDS[args.command](galaxy, *args.args)`: dispatch to the report
function.  Calling a function with more positional arguments than it
accepts raises `TypeError`; `print_job_runtimes` called without an
argument uses its `days_ago = "30"` default. -/
def run_command (galaxy : GalaxyInstance) (current_date : Int)
    (command : String) (args : List String) : Except PyError ProgramOutput :=
  if command = "user_emails" then
    match args with
    | [] => Except.ok (ProgramOutput.userEmails (print_user_emails galaxy))
    | _ :: _ => Except.error PyError.typeError
  else if command = "usage_report" then
    match args with
    | [] => Except.ok (ProgramOutput.usageReport
        (print_usage_report galaxy current_date))
    | _ :: _ => Except.error PyError.typeError
  else if command = "job_runtimes" then
    match args with
    | [] =>
      (print_job_runtimes galaxy current_date "30").map ProgramOutput.jobRuntimes
    | [d] =>
      (print_job_runtimes galaxy current_date d).map ProgramOutput.jobRuntimes
    | _ :: _ :: _ => Except.error PyError.typeError
  else Except.error PyError.typeError

/-- `main()`: the argument parser rejects any `command` outside
`AVAILABLE_COMMANDS` (`choices=...`) with a usage error before the
`GalaxyInstance` is built or touched; otherwise it dispatches. -/
def run_main (galaxy : GalaxyInstance) (current_date : Int) (command : String)
    (args : List String) : Except PyError ProgramOutput :=
  if command ∈ AVAILABLE_COMMANDS then
    run_command galaxy current_date command args
  else Except.error PyError.usageError

/-! ## Concrete instances used in counterexamples and witnesses -/

/-- A job submitted anonymously: its `user_email` field is absent. -/
def jobNoEmail : Job :=
  { id := "1", state := "ok", tool_id := "toolA", user_email := none }

/-- A galaxy whose job store holds exactly one anonymous job. -/
def gNoEmail : GalaxyInstance :=
  { get_users := []
    get_jobs := fun _ _ => [jobNoEmail]
    show_job := fun _ _ => none }

/-- A galaxy with no users and no jobs. -/
def gEmpty : GalaxyInstance :=
  { get_users := []
    get_jobs := fun _ _ => []
    show_job := fun _ _ => none }

/-! ## Theorems -/

/-- The window size carried by a data row (`none` for the header line). -/
def rowDays : UsageLine → Option Nat
  | UsageLine.header => none
  | UsageLine.row days _ _ => some days

theorem emailLines_eq_filterMap (l : List User) :
    emailLines l = l.filterMap fun u => u.email := by
  induction l with
  | nil => rfl
  | cons u rest ih => cases hu : u.email <;> simp [emailLines, hu, ih]

/-- C1 (counterexample): for a window holding a single job with absent
`user_email`, the printed active-user count is `1`, while the number of
distinct non-absent submitting-user emails is `0`: an absent email does
contribute to the count. -/
theorem absent_email_counted_as_active_user :
    (print_usage_report gNoEmail 0)[1]? = some (UsageLine.row 1 1 1) ∧
    spec_active_users (gNoEmail.get_jobs (0 - 1) true) = 0 ∧
    (1 : Nat) ≠ 0 := by
  refine ⟨?_, ?_, by decide⟩
  · with_unfolding_all rfl
  · with_unfolding_all rfl

/-- C1 (amended): the active-user count printed for a window is the number
of distinct `user_email` values among the window's jobs, where all jobs
with an absent email together contribute exactly one extra value; with no
absent emails it is exactly the number of distinct submitting-user
emails (so 10 jobs from 3 distinct users still yield `active_users = 3`). -/
theorem active_users_distinct_with_absent (jobs : List Job) :
    unique_users jobs =
      spec_active_users jobs +
        (if jobs.any fun j => j.user_email.isNone then 1 else 0) := by
  classical
  unfold unique_users spec_active_users
  have hErase :
      ((jobs.map fun j => j.user_email).toFinset.erase none) =
        ((jobs.filterMap fun j => j.user_email).toFinset.image some) := by
    ext x
    cases x with
    | none => simp
    | some a => simp
  by_cases h : (none : Option String) ∈ (jobs.map fun j => j.user_email).toFinset
  · have hcard := Finset.card_erase_add_one h
    rw [hErase, Finset.card_image_of_injective _ (Option.some_injective String)]
      at hcard
    have hany : (jobs.any fun j => j.user_email.isNone) = true := by
      simp only [List.mem_toFinset, List.mem_map] at h
      obtain ⟨j, hj, hje⟩ := h
      simp only [List.any_eq_true]
      exact ⟨j, hj, by simp [hje]⟩
    rw [hany]
    simp only [if_pos]
    omega
  · have h2 := Finset.erase_eq_of_not_mem h
    rw [hErase] at h2
    have hany : (jobs.any fun j => j.user_email.isNone) = false := by
      simp only [List.mem_toFinset, List.mem_map, not_exists] at h
      simp only [List.any_eq_false]
      intro j hj
      simp only [Option.isNone_iff_eq_none]
      exact fun hje => h j ⟨hj, hje⟩
    rw [hany]
    simp only [if_neg, Bool.false_eq_true, not_false_iff, add_zero]
    rw [← h2, Finset.card_image_of_injective _ (Option.some_injective String)]

/-- C6: for every galaxy and current date, the usage report is a header
line followed by exactly six data rows, for the lookback windows
1, 7, 30, 90, 180 and 365 days, in that order. -/
theorem usage_report_six_rows (galaxy : GalaxyInstance) (current_date : Int) :
    (print_usage_report galaxy current_date).head? = some UsageLine.header ∧
    (print_usage_report galaxy current_date).tail.map rowDays =
      [some 1, some 7, some 30, some 90, some 180, some 365] ∧
    (print_usage_report galaxy current_date).length = 7 := by
  refine ⟨rfl, ?_, rfl⟩
  simp [print_usage_report, days_ago_windows, rowDays]

/-- C7: `user-emails` prints exactly the present emails of the returned
users, one line each, in input order; a user with an absent email
contributes no line and raises no error. -/
theorem user_emails_one_line_per_present_email (galaxy : GalaxyInstance) :
    print_user_emails galaxy = galaxy.get_users.filterMap fun u => u.email :=
  emailLines_eq_filterMap galaxy.get_users

/-- C2 (counterexample): the hyphenated command name `"user-emails"` is
rejected with a usage error, while the underscored `"user_emails"` is the
name the dispatcher actually accepts. -/
theorem hyphenated_command_rejected :
    run_main gEmpty 0 "user-emails" [] = Except.error PyError.usageError ∧
    run_main gEmpty 0 "user_emails" [] =
      Except.ok (ProgramOutput.userEmails []) := by
  constructor
  · with_unfolding_all rfl
  · with_unfolding_all rfl

/-- C2 (amended): the dispatcher accepts exactly the command names
`"user_emails"`, `"usage_report"` and `"job_runtimes"`; any other command
string is rejected with a usage error, and in that case the result does not
depend on the galaxy instance at all (no API call is made). -/
theorem dispatcher_accepts_exactly_registered_commands (command : String)
    (g g' : GalaxyInstance) (d d' : Int) (args args' : List String) :
    (command ∉ AVAILABLE_COMMANDS →
      run_main g d command args = Except.error PyError.usageError ∧
      run_main g d command args = run_main g' d' command args') ∧
    (command ∈ AVAILABLE_COMMANDS →
      run_main g d command args ≠ Except.error PyError.usageError) ∧
    AVAILABLE_COMMANDS = ["user_emails", "usage_report", "job_runtimes"] := by
  refine ⟨fun h => ?_, fun h => ?_, rfl⟩
  · rw [run_main, if_neg h, run_main, if_neg h]
    exact ⟨rfl, rfl⟩
  · rw [run_main, if_pos h]
    simp only [AVAILABLE_COMMANDS, List.mem_cons, List.mem_singleton,
      List.not_mem_nil, or_false] at h
    rcases h with rfl | rfl | rfl
    · cases args <;> simp [run_command]
    · cases args <;> simp [run_command]
    · match args with
      | [] =>
        have h30 : pyInt "30" = some (30 : Int) := by decide
        simp [run_command, print_job_runtimes, h30, Except.map]
      | [a] =>
        cases ha : pyInt a <;>
          simp [run_command, print_job_runtimes, ha, Except.map]
      | _ :: _ :: _ => simp [run_command]

/-- C2 witness: the unregistered command `"bogus"` yields a usage error. -/
theorem dispatcher_accepts_exactly_registered_commands_witness :
    run_main gEmpty 0 "bogus" [] = Except.error PyError.usageError :=
  ((dispatcher_accepts_exactly_registered_commands "bogus" gEmpty gEmpty 0 0
    [] []).1 (by decide)).1

/-- Unfolding equation for `job_runtimes_lines`. -/
theorem job_runtimes_lines_def (sj : String → Bool → Option JobDetail)
    (jobs : List Job) (days_ago : Int) :
    job_runtimes_lines sj jobs days_ago =
      RuntimeLine.summary days_ago jobs.length :: RuntimeLine.header ::
        (buildRuntimes (jobLoop sj jobs).1).map
          (fun p => RuntimeLine.row (toolStats p.1 p.2)) := rfl

/-- Removing a job whose state is not `"ok"` from the fetched list changes
neither the recorded `(tool_id, runtime)` pairs nor the trace of
`show_job` calls. -/
theorem jobLoop_skips_non_ok (sj : String → Bool → Option JobDetail)
    (l1 l2 : List Job) (j : Job) (h : ¬j.state = "ok") :
    jobLoop sj (l1 ++ j :: l2) = jobLoop sj (l1 ++ l2) := by
  induction l1 with
  | nil => simp [jobLoop, h]
  | cons job rest ih =>
    by_cases hs : job.state = "ok"
    · cases hd : sj job.id true
      · simp [jobLoop, hs, hd]
      · simp [jobLoop, hs, hd, ih]
    · simp [jobLoop, hs, ih]

/-- Every id passed to `show_job` belongs to a fetched job whose state is
`"ok"`. -/
theorem jobLoop_calls_only_ok (sj : String → Bool → Option JobDetail)
    (jobs : List Job) :
    ∀ i ∈ (jobLoop sj jobs).2, ∃ jb ∈ jobs, jb.id = i ∧ jb.state = "ok" := by
  induction jobs with
  | nil => simp [jobLoop]
  | cons job rest ih =>
    intro i hi
    by_cases hs : job.state = "ok"
    · cases hd : sj job.id true
      · simp [jobLoop, hs, hd] at hi
        exact ⟨job, by simp, hi ▸ rfl, hs⟩
      · simp [jobLoop, hs, hd] at hi
        rcases hi with rfl | hi
        · exact ⟨job, by simp, rfl, hs⟩
        · obtain ⟨jb, hjb, hji, hjs⟩ := ih i hi
          exact ⟨jb, by simp [hjb], hji, hjs⟩
    · simp only [jobLoop, if_neg hs] at hi
      obtain ⟨jb, hjb, hji, hjs⟩ := ih i hi
      exact ⟨jb, by simp [hjb], hji, hjs⟩

/-- C4: a job whose state is anything other than `"ok"` is skipped: the
recorded runtimes and the `show_job` call trace are those of the list
without it, it still counts in the printed total job count for the window,
and every detail fetch that does happen is for a job in state `"ok"`. -/
theorem non_ok_job_counted_but_not_aggregated
    (sj : String → Bool → Option JobDetail) (l1 l2 : List Job) (j : Job)
    (d : Int) (h : ¬j.state = "ok") :
    jobLoop sj (l1 ++ j :: l2) = jobLoop sj (l1 ++ l2) ∧
    (job_runtimes_lines sj (l1 ++ j :: l2) d).head? =
      some (RuntimeLine.summary d (l1.length + l2.length + 1)) ∧
    (∀ i ∈ (jobLoop sj (l1 ++ j :: l2)).2,
      ∃ jb ∈ l1 ++ j :: l2, jb.id = i ∧ jb.state = "ok") := by
  refine ⟨jobLoop_skips_non_ok sj l1 l2 j h, ?_,
    jobLoop_calls_only_ok sj (l1 ++ j :: l2)⟩
  rw [job_runtimes_lines_def]
  simp only [List.head?_cons, Option.some.injEq, RuntimeLine.summary.injEq,
    List.length_append, List.length_cons]
  refine ⟨trivial, ?_⟩
  omega

/-- A detail-fetch oracle that reports a ten-second runtime for every job. -/
def sjTen : String → Bool → Option JobDetail := fun _ _ =>
  some { job_metrics := [{ name := "runtime_seconds", raw_value := 10 }] }

/-- A job that finished in state `"error"`. -/
def jobErr : Job :=
  { id := "9", state := "error", tool_id := "toolB", user_email := none }

/-- C4 witness: with one `"ok"` job and one `"error"` job, the `"error"`
job is invisible to the aggregation and the call trace but raises the
printed job count to 2. -/
theorem non_ok_job_counted_but_not_aggregated_witness :
    jobLoop sjTen ([jobNoEmail] ++ jobErr :: ([] : List Job)) =
      jobLoop sjTen ([jobNoEmail] ++ ([] : List Job)) ∧
    (job_runtimes_lines sjTen ([jobNoEmail] ++ jobErr :: ([] : List Job))
        30).head? =
      some (RuntimeLine.summary 30
        ([jobNoEmail].length + ([] : List Job).length + 1)) ∧
    (∀ i ∈ (jobLoop sjTen ([jobNoEmail] ++ jobErr :: ([] : List Job))).2,
      ∃ jb ∈ [jobNoEmail] ++ jobErr :: ([] : List Job),
        jb.id = i ∧ jb.state = "ok") :=
  non_ok_job_counted_but_not_aggregated sjTen [jobNoEmail] [] jobErr 30
    (by decide)

/-- A connection failure while fetching the detail of an `"ok"` job drops
everything from that job on: the recorded pairs are those of the jobs
before it. -/
theorem jobLoop_break_on_failure (sj : String → Bool → Option JobDetail)
    (l1 l2 : List Job) (j : Job) (hok : j.state = "ok")
    (hfail : sj j.id true = none) :
    (jobLoop sj (l1 ++ j :: l2)).1 = (jobLoop sj l1).1 := by
  induction l1 with
  | nil => simp [jobLoop, hok, hfail]
  | cons job rest ih =>
    by_cases hs : job.state = "ok"
    · cases hd : sj job.id true
      · simp [jobLoop, hs, hd]
      · simp [jobLoop, hs, hd, ih]
    · simp [jobLoop, hs, ih]

/-- C3: when the detail fetch hits a connection error at an `"ok"` job,
`print_job_runtimes` still returns normally (`Except.ok`, no error to the
caller), and the per-tool statistics are computed from the jobs processed
strictly before the failing one. -/
theorem connection_error_truncates_silently (g : GalaxyInstance) (d : Int)
    (l1 l2 : List Job) (j : Job)
    (hjobs : g.get_jobs (d - 30) false = l1 ++ j :: l2)
    (hok : j.state = "ok") (hfail : g.show_job j.id true = none) :
    print_job_runtimes g d "30" =
      Except.ok (RuntimeLine.summary 30 (l1.length + l2.length + 1) ::
        RuntimeLine.header ::
        (buildRuntimes (jobLoop g.show_job l1).1).map
          (fun p => RuntimeLine.row (toolStats p.1 p.2))) := by
  have h30 : pyInt "30" = some (30 : Int) := by decide
  have hlen : (l1 ++ j :: l2).length = l1.length + l2.length + 1 := by
    rw [List.length_append, List.length_cons]
    omega
  simp only [print_job_runtimes, h30]
  rw [hjobs, job_runtimes_lines_def,
    jobLoop_break_on_failure g.show_job l1 l2 j hok hfail, hlen]

/-- Detail of a job whose only metric is a `runtime_seconds` of `r`. -/
def rtDetail (r : ℚ) : JobDetail :=
  { job_metrics := [{ name := "runtime_seconds", raw_value := r }] }

/-- Second `"ok"` job of tool A. -/
def jA2 : Job :=
  { id := "2", state := "ok", tool_id := "toolA", user_email := none }

/-- Third `"ok"` job; its detail fetch will fail. -/
def jB3 : Job :=
  { id := "3", state := "ok", tool_id := "toolB", user_email := none }

/-- Fourth `"ok"` job. -/
def jB4 : Job :=
  { id := "4", state := "ok", tool_id := "toolB", user_email := none }

/-- Fifth `"ok"` job. -/
def jC5 : Job :=
  { id := "5", state := "ok", tool_id := "toolC", user_email := none }

/-- A galaxy with five `"ok"` jobs whose detail fetch fails at the third. -/
def g5 : GalaxyInstance :=
  { get_users := []
    get_jobs := fun _ _ => [jobNoEmail, jA2, jB3, jB4, jC5]
    show_job := fun i _ =>
      if i = "3" then none
      else if i = "1" then some (rtDetail 10)
      else if i = "2" then some (rtDetail 20)
      else some (rtDetail 30) }

/-- C3 witness: a failure at the 3rd of 5 `"ok"` jobs yields a report built
from jobs 1 and 2 only, with no error surfaced. -/
theorem connection_error_truncates_silently_witness :
    print_job_runtimes g5 0 "30" =
      Except.ok [RuntimeLine.summary 30 5, RuntimeLine.header,
        RuntimeLine.row
          { tool_id := "toolA"
            times_executed := 2
            min_runtime := 10
            max_runtime := 20
            median_runtime := 15
            mean_runtime := 15 }] := by
  have h := connection_error_truncates_silently g5 0 [jobNoEmail, jA2]
    [jB4, jC5] jB3 (by with_unfolding_all rfl) (by decide)
    (by with_unfolding_all rfl)
  rw [h]
  with_unfolding_all rfl

/-- C8: dispatching `job_runtimes` without an argument behaves exactly as
with the default `"30"`; `days_ago = "0"` queries jobs since the current
date itself; a non-integer-convertible argument raises `ValueError`, which
propagates out of the dispatcher uncaught. -/
theorem days_ago_default_zero_today_and_parse_error (g : GalaxyInstance)
    (d : Int) (s : String) (h : pyInt s = none) :
    run_main g d "job_runtimes" [] = run_main g d "job_runtimes" ["30"] ∧
    print_job_runtimes g d "0" =
      Except.ok (job_runtimes_lines g.show_job (g.get_jobs d false) 0) ∧
    print_job_runtimes g d s = Except.error PyError.valueError ∧
    run_main g d "job_runtimes" [s] = Except.error PyError.valueError := by
  have h0 : pyInt "0" = some (0 : Int) := by decide
  refine ⟨by with_unfolding_all rfl, ?_, ?_, ?_⟩
  · simp only [print_job_runtimes, h0]
    rw [sub_zero]
  · simp only [print_job_runtimes, h]
  · rw [run_main, if_pos (by decide), run_command,
      if_neg (by decide), if_neg (by decide), if_pos (by decide)]
    simp only [print_job_runtimes, h, Except.map]

/-- C8 witness: `days_ago = "abc"` makes the dispatched call fail with a
`ValueError`. -/
theorem days_ago_parse_error_witness :
    run_main gEmpty 0 "job_runtimes" ["abc"] = Except.error PyError.valueError :=
  (days_ago_default_zero_today_and_parse_error gEmpty 0 "abc" (by decide)).2.2.2

theorem foldl_min_eq_or_mem (xs : List ℚ) (x : ℚ) :
    xs.foldl min x = x ∨ xs.foldl min x ∈ xs := by
  induction xs generalizing x with
  | nil => exact Or.inl rfl
  | cons y ys ih =>
    rcases ih (min x y) with he | hm
    · rcases min_choice x y with hx | hy
      · exact Or.inl (by rw [List.foldl_cons, he, hx])
      · exact Or.inr (by rw [List.foldl_cons, he, hy]; exact List.mem_cons_self y ys)
    · exact Or.inr (List.mem_cons_of_mem y hm)

theorem foldl_min_le (xs : List ℚ) (x : ℚ) :
    xs.foldl min x ≤ x ∧ ∀ y ∈ xs, xs.foldl min x ≤ y := by
  induction xs generalizing x with
  | nil => exact ⟨le_refl x, by simp⟩
  | cons z zs ih =>
    obtain ⟨h1, h2⟩ := ih (min x z)
    refine ⟨le_trans h1 (min_le_left x z), ?_⟩
    intro y hy
    rcases List.mem_cons.mp hy with rfl | hy
    · exact le_trans h1 (min_le_right x y)
    · exact h2 y hy

theorem foldl_max_eq_or_mem (xs : List ℚ) (x : ℚ) :
    xs.foldl max x = x ∨ xs.foldl max x ∈ xs := by
  induction xs generalizing x with
  | nil => exact Or.inl rfl
  | cons y ys ih =>
    rcases ih (max x y) with he | hm
    · rcases max_choice x y with hx | hy
      · exact Or.inl (by rw [List.foldl_cons, he, hx])
      · exact Or.inr (by rw [List.foldl_cons, he, hy]; exact List.mem_cons_self y ys)
    · exact Or.inr (List.mem_cons_of_mem y hm)

theorem foldl_le_max (xs : List ℚ) (x : ℚ) :
    x ≤ xs.foldl max x ∧ ∀ y ∈ xs, y ≤ xs.foldl max x := by
  induction xs generalizing x with
  | nil => exact ⟨le_refl x, by simp⟩
  | cons z zs ih =>
    obtain ⟨h1, h2⟩ := ih (max x z)
    refine ⟨le_trans (le_max_left x z) h1, ?_⟩
    intro y hy
    rcases List.mem_cons.mp hy with rfl | hy
    · exact le_trans (le_max_right x y) h1
    · exact h2 y hy

/-- `min(runtime_values)` is a member of the list and a lower bound. -/
theorem listMin_spec (vs : List ℚ) (h : vs ≠ []) :
    listMin vs ∈ vs ∧ ∀ x ∈ vs, listMin vs ≤ x := by
  match vs with
  | [] => exact absurd rfl h
  | x :: xs =>
    constructor
    · rcases foldl_min_eq_or_mem xs x with he | hm
      · rw [listMin, he]; exact List.mem_cons_self x xs
      · exact List.mem_cons_of_mem x hm
    · intro y hy
      obtain ⟨h1, h2⟩ := foldl_min_le xs x
      rcases List.mem_cons.mp hy with rfl | hy
      · exact h1
      · exact h2 y hy

/-- `max(runtime_values)` is a member of the list and an upper bound. -/
theorem listMax_spec (vs : List ℚ) (h : vs ≠ []) :
    listMax vs ∈ vs ∧ ∀ x ∈ vs, x ≤ listMax vs := by
  match vs with
  | [] => exact absurd rfl h
  | x :: xs =>
    constructor
    · rcases foldl_max_eq_or_mem xs x with he | hm
      · rw [listMax, he]; exact List.mem_cons_self x xs
      · exact List.mem_cons_of_mem x hm
    · intro y hy
      obtain ⟨h1, h2⟩ := foldl_le_max xs x
      rcases List.mem_cons.mp hy with rfl | hy
      · exact h1
      · exact h2 y hy

theorem insertSorted_perm (x : ℚ) (l : List ℚ) :
    (insertSorted x l).Perm (x :: l) := by
  induction l with
  | nil => exact List.Perm.refl _
  | cons y ys ih =>
    by_cases h : x ≤ y
    · rw [insertSorted, if_pos h]
    · rw [insertSorted, if_neg h]
      exact (ih.cons y).trans (List.Perm.swap x y ys)

/-- The list sorted inside `statistics.median` is a permutation of the
input. -/
theorem sortQ_perm (l : List ℚ) : (sortQ l).Perm l := by
  induction l with
  | nil => exact List.Perm.refl _
  | cons x xs ih => exact (insertSorted_perm x (sortQ xs)).trans (ih.cons x)

/-- `statistics.median` returns either an element of the data or the
average of two elements of the data. -/
theorem median_mem_or_avg (vs : List ℚ) (h : vs ≠ []) :
    median vs ∈ vs ∨ ∃ a ∈ vs, ∃ b ∈ vs, median vs = (a + b) / 2 := by
  have hperm := sortQ_perm vs
  have hlen : (sortQ vs).length = vs.length := hperm.length_eq
  have hpos : 0 < vs.length := List.length_pos.mpr h
  by_cases hodd : (sortQ vs).length % 2 = 1
  · left
    rw [median, if_pos hodd]
    have hlt : (sortQ vs).length / 2 < (sortQ vs).length := by omega
    rw [List.getD_eq_getElem _ _ hlt]
    exact hperm.mem_iff.mp (List.getElem_mem _)
  · right
    have h2 : 2 ≤ (sortQ vs).length := by omega
    have hlt1 : (sortQ vs).length / 2 - 1 < (sortQ vs).length := by omega
    have hlt2 : (sortQ vs).length / 2 < (sortQ vs).length := by omega
    refine ⟨(sortQ vs).getD ((sortQ vs).length / 2 - 1) 0, ?_,
      (sortQ vs).getD ((sortQ vs).length / 2) 0, ?_, ?_⟩
    · rw [List.getD_eq_getElem _ _ hlt1]
      exact hperm.mem_iff.mp (List.getElem_mem _)
    · rw [List.getD_eq_getElem _ _ hlt2]
      exact hperm.mem_iff.mp (List.getElem_mem _)
    · rw [median, if_neg hodd]

/-- C5: `job-runtimes` reports, for each tool's recorded runtimes, the
execution count and the rounded minimum, maximum, median and mean; the
minimum and maximum are genuine extrema of the data, the median is an
element or a mid-average of two elements, the mean is the sum over the
count, and the recorded runtimes `[10, 20, 30]` yield
executions = 3, min = 10, max = 30, median = 20, mean = 20. -/
theorem tool_stats_fields (tool_id : String) (vs : List ℚ) (h : vs ≠ []) :
    (toolStats tool_id vs).times_executed = vs.length ∧
    (toolStats tool_id vs).min_runtime = pyRound (listMin vs) ∧
    (listMin vs ∈ vs ∧ ∀ x ∈ vs, listMin vs ≤ x) ∧
    (toolStats tool_id vs).max_runtime = pyRound (listMax vs) ∧
    (listMax vs ∈ vs ∧ ∀ x ∈ vs, x ≤ listMax vs) ∧
    (toolStats tool_id vs).mean_runtime = pyRound (vs.sum / (vs.length : ℚ)) ∧
    (toolStats tool_id vs).median_runtime = pyRound (median vs) ∧
    (median vs ∈ vs ∨ ∃ a ∈ vs, ∃ b ∈ vs, median vs = (a + b) / 2) ∧
    toolStats "X" [10, 20, 30] =
      { tool_id := "X"
        times_executed := 3
        min_runtime := 10
        max_runtime := 30
        median_runtime := 20
        mean_runtime := 20 } := by
  refine ⟨rfl, rfl, listMin_spec vs h, rfl, listMax_spec vs h, rfl, rfl,
    median_mem_or_avg vs h, ?_⟩
  with_unfolding_all rfl

/-- C5 witness: the theorem instantiated at tool `"X"` with recorded
runtimes `[10, 20, 30]`. -/
theorem tool_stats_fields_witness :
    (toolStats "X" [(10 : ℚ), 20, 30]).times_executed =
      [(10 : ℚ), 20, 30].length ∧
    (toolStats "X" [(10 : ℚ), 20, 30]).min_runtime =
      pyRound (listMin [(10 : ℚ), 20, 30]) ∧
    (listMin [(10 : ℚ), 20, 30] ∈ [(10 : ℚ), 20, 30] ∧
      ∀ x ∈ [(10 : ℚ), 20, 30], listMin [(10 : ℚ), 20, 30] ≤ x) ∧
    (toolStats "X" [(10 : ℚ), 20, 30]).max_runtime =
      pyRound (listMax [(10 : ℚ), 20, 30]) ∧
    (listMax [(10 : ℚ), 20, 30] ∈ [(10 : ℚ), 20, 30] ∧
      ∀ x ∈ [(10 : ℚ), 20, 30], x ≤ listMax [(10 : ℚ), 20, 30]) ∧
    (toolStats "X" [(10 : ℚ), 20, 30]).mean_runtime =
      pyRound ([(10 : ℚ), 20, 30].sum / ([(10 : ℚ), 20, 30].length : ℚ)) ∧
    (toolStats "X" [(10 : ℚ), 20, 30]).median_runtime =
      pyRound (median [(10 : ℚ), 20, 30]) ∧
    (median [(10 : ℚ), 20, 30] ∈ [(10 : ℚ), 20, 30] ∨
      ∃ a ∈ [(10 : ℚ), 20, 30], ∃ b ∈ [(10 : ℚ), 20, 30],
        median [(10 : ℚ), 20, 30] = (a + b) / 2) ∧
    toolStats "X" [10, 20, 30] =
      { tool_id := "X"
        times_executed := 3
        min_runtime := 10
        max_runtime := 30
        median_runtime := 20
        mean_runtime := 20 } :=
  tool_stats_fields "X" [10, 20, 30] (by decide)

/-! ## First-encounter order of the `runtimes` dict -/

/-- The distinct elements of a list that are not in `seen`, listed in the
order of their first occurrence. -/
def firstOccAux (seen : List String) : List String → List String
  | [] => []
  | x :: xs =>
    if x ∈ seen then firstOccAux seen xs
    else x :: firstOccAux (seen ++ [x]) xs

theorem insertRuntime_keys (acc : List (String × List ℚ)) (tool_id : String)
    (value : ℚ) :
    (insertRuntime acc tool_id value).map Prod.fst =
      if tool_id ∈ acc.map Prod.fst then acc.map Prod.fst
      else acc.map Prod.fst ++ [tool_id] := by
  induction acc with
  | nil => simp [insertRuntime]
  | cons p rest ih =>
    obtain ⟨t, vs⟩ := p
    by_cases h : t = tool_id
    · subst h
      simp [insertRuntime]
    · rw [insertRuntime, if_neg h]
      by_cases hm : tool_id ∈ rest.map Prod.fst
      · simp only [List.map_cons, ih, if_pos hm, List.mem_cons]
        rw [if_pos (Or.inr hm)]
      · simp only [List.map_cons, ih, if_neg hm, List.mem_cons]
        rw [if_neg (by simp [hm, Ne.symm h])]
        simp

theorem foldl_insertRuntime_keys (ps : List (String × ℚ))
    (acc : List (String × List ℚ)) :
    (ps.foldl (fun a p => insertRuntime a p.1 p.2) acc).map Prod.fst =
      acc.map Prod.fst ++ firstOccAux (acc.map Prod.fst) (ps.map Prod.fst) := by
  induction ps generalizing acc with
  | nil => simp [firstOccAux]
  | cons p rest ih =>
    rw [List.foldl_cons, ih, insertRuntime_keys]
    by_cases hm : p.1 ∈ acc.map Prod.fst
    · rw [if_pos hm, List.map_cons, firstOccAux, if_pos hm]
    · rw [if_neg hm, List.map_cons, firstOccAux, if_neg hm]
      simp

/-- The keys of the `runtimes` dict are the tool ids of the recorded
pairs, in first-encounter order. -/
theorem buildRuntimes_keys (ps : List (String × ℚ)) :
    (buildRuntimes ps).map Prod.fst = firstOccAux [] (ps.map Prod.fst) := by
  rw [buildRuntimes, foldl_insertRuntime_keys]
  simp

theorem firstOccAux_mem (l : List String) (seen : List String) (x : String) :
    x ∈ firstOccAux seen l ↔ x ∈ l ∧ x ∉ seen := by
  induction l generalizing seen with
  | nil => simp [firstOccAux]
  | cons y ys ih =>
    by_cases h : y ∈ seen
    · rw [firstOccAux, if_pos h, ih]
      constructor
      · rintro ⟨hx, hs⟩
        exact ⟨List.mem_cons_of_mem y hx, hs⟩
      · rintro ⟨hx, hs⟩
        rcases List.mem_cons.mp hx with rfl | hx
        · exact absurd h hs
        · exact ⟨hx, hs⟩
    · rw [firstOccAux, if_neg h]
      constructor
      · intro hx
        rcases List.mem_cons.mp hx with rfl | hx
        · exact ⟨List.mem_cons_self x ys, h⟩
        · obtain ⟨h1, h2⟩ := (ih (seen ++ [y])).mp hx
          simp only [List.mem_append, List.mem_singleton, not_or] at h2
          exact ⟨List.mem_cons_of_mem y h1, h2.1⟩
      · rintro ⟨hx, hs⟩
        rcases List.mem_cons.mp hx with rfl | hx
        · exact List.mem_cons_self x _
        · by_cases hxy : x = y
          · subst hxy
            exact List.mem_cons_self x _
          · refine List.mem_cons_of_mem y ((ih (seen ++ [y])).mpr ⟨hx, ?_⟩)
            simp [hs, hxy]

theorem firstOccAux_nodup (l : List String) (seen : List String) :
    (firstOccAux seen l).Nodup := by
  induction l generalizing seen with
  | nil => simp [firstOccAux]
  | cons y ys ih =>
    by_cases h : y ∈ seen
    · rw [firstOccAux, if_pos h]
      exact ih seen
    · rw [firstOccAux, if_neg h]
      refine List.Nodup.cons ?_ (ih (seen ++ [y]))
      intro hy
      have := ((firstOccAux_mem ys (seen ++ [y]) y).mp hy).2
      simp at this

theorem insertRuntime_values_nonempty (acc : List (String × List ℚ))
    (tool_id : String) (value : ℚ)
    (h : ∀ p ∈ acc, p.2 ≠ []) :
    ∀ p ∈ insertRuntime acc tool_id value, p.2 ≠ [] := by
  induction acc with
  | nil =>
    intro p hp
    simp only [insertRuntime, List.mem_singleton] at hp
    subst hp
    simp
  | cons q rest ih =>
    obtain ⟨t, vs⟩ := q
    intro p hp
    by_cases ht : t = tool_id
    · subst ht
      rw [insertRuntime, if_pos rfl] at hp
      rcases List.mem_cons.mp hp with rfl | hp
      · simp
      · exact h p (List.mem_cons_of_mem _ hp)
    · rw [insertRuntime, if_neg ht] at hp
      rcases List.mem_cons.mp hp with rfl | hp
      · exact h _ (List.mem_cons_self _ _)
      · exact ih (fun r hr => h r (List.mem_cons_of_mem _ hr)) p hp

/-- Every entry of the `runtimes` dict holds at least one recorded
runtime. -/
theorem buildRuntimes_values_nonempty (ps : List (String × ℚ)) :
    ∀ p ∈ buildRuntimes ps, p.2 ≠ [] := by
  rw [buildRuntimes]
  generalize hacc : ([] : List (String × List ℚ)) = acc
  have hbase : ∀ p ∈ acc, p.2 ≠ [] := by rw [← hacc]; simp
  clear hacc
  induction ps generalizing acc with
  | nil => exact hbase
  | cons p rest ih =>
    rw [List.foldl_cons]
    exact ih _ (insertRuntime_values_nonempty acc p.1 p.2 hbase)

/-- C9: the `job-runtimes` report consists of the summary line, one header
row, then exactly one statistics row per distinct tool id that received at
least one recorded runtime: the row keys are pairwise distinct, appear in
first-encounter order of the recorded `(tool_id, runtime)` pairs, a tool id
appears iff it actually recorded a runtime, and every emitted row counts at
least one execution. -/
theorem job_runtimes_row_per_tool_in_first_encounter_order
    (sj : String → Bool → Option JobDetail) (jobs : List Job) (d : Int) :
    job_runtimes_lines sj jobs d =
      RuntimeLine.summary d jobs.length :: RuntimeLine.header ::
        (buildRuntimes (jobLoop sj jobs).1).map
          (fun p => RuntimeLine.row (toolStats p.1 p.2)) ∧
    ((buildRuntimes (jobLoop sj jobs).1).map
        fun p => (toolStats p.1 p.2).tool_id) =
      firstOccAux [] ((jobLoop sj jobs).1.map Prod.fst) ∧
    ((buildRuntimes (jobLoop sj jobs).1).map
        fun p => (toolStats p.1 p.2).tool_id).Nodup ∧
    (∀ t : String,
      t ∈ ((buildRuntimes (jobLoop sj jobs).1).map
          fun p => (toolStats p.1 p.2).tool_id) ↔
        t ∈ (jobLoop sj jobs).1.map Prod.fst) ∧
    (∀ p ∈ buildRuntimes (jobLoop sj jobs).1,
      1 ≤ (toolStats p.1 p.2).times_executed) := by
  have hkey : ((buildRuntimes (jobLoop sj jobs).1).map
      fun p => (toolStats p.1 p.2).tool_id) =
        firstOccAux [] ((jobLoop sj jobs).1.map Prod.fst) := by
    rw [← buildRuntimes_keys]
    rfl
  refine ⟨job_runtimes_lines_def sj jobs d, hkey, ?_, ?_, ?_⟩
  · rw [hkey]
    exact firstOccAux_nodup _ _
  · intro t
    rw [hkey, firstOccAux_mem]
    simp
  · intro p hp
    have := buildRuntimes_values_nonempty (jobLoop sj jobs).1 p hp
    have : p.2.length ≠ 0 := fun hl => this (List.length_eq_zero.mp hl)
    simp only [toolStats]
    omega

/-! ## Rounding -/

/-- C10: the rounding used for the reported statistics is
round-half-to-even: a value exactly halfway between two integers rounds to
the even neighbour.  In particular the mean of recorded runtimes `[10, 15]`
is reported as `12` (12.5 rounds down to even 12) and the mean of
`[10, 25]` as `18` (17.5 rounds up to even 18); and every reported mean and
median is `pyRound` of the exact mean and median. -/
theorem statistics_rounding_half_to_even (n : Int) :
    pyRound ((n : ℚ) + 1 / 2) = (if n % 2 = 0 then n else n + 1) ∧
    pyRound ((n : ℚ) + 1 / 2) % 2 = 0 ∧
    (pyRound ((n : ℚ) + 1 / 2) = n ∨ pyRound ((n : ℚ) + 1 / 2) = n + 1) ∧
    (∀ (tid : String) (vs : List ℚ),
      (toolStats tid vs).mean_runtime = pyRound (mean vs) ∧
      (toolStats tid vs).median_runtime = pyRound (median vs)) ∧
    (toolStats "X" [10, 15]).mean_runtime = 12 ∧
    (toolStats "X" [10, 25]).mean_runtime = 18 := by
  have hf : (⌊(n : ℚ) + 1 / 2⌋ : Int) = n := by
    rw [add_comm, Int.floor_add_int]
    norm_num
  have hmain : pyRound ((n : ℚ) + 1 / 2) =
      (if n % 2 = 0 then n else n + 1) := by
    rw [pyRound]
    simp only [hf]
    have hfrac : ((n : ℚ) + 1 / 2) - (n : ℚ) = 1 / 2 := by ring
    rw [hfrac]
    norm_num
  refine ⟨hmain, ?_, ?_, fun tid vs => ⟨rfl, rfl⟩, ?_, ?_⟩
  · rw [hmain]
    by_cases h : n % 2 = 0
    · rw [if_pos h]; omega
    · rw [if_neg h]; omega
  · rw [hmain]
    by_cases h : n % 2 = 0
    · rw [if_pos h]; exact Or.inl rfl
    · rw [if_neg h]; exact Or.inr rfl
  · with_unfolding_all rfl
  · with_unfolding_all rfl

end GalaxyAdmin
